import Mathlib

/-!
# Verification of the risk-dashboard data pipeline (`Dash5.py`)

Shallow embedding of the dashboard's data model and callbacks:

* numeric CSV columns (`RD_0 .. RD_6`) and everything derived from them are
  modelled as exact rationals `ℚ`, abstracting IEEE-754 rounding;
* the Chinese column names of the source are kept in string literals
  (`CATS`, titles); Lean identifiers use their English equivalents:
  `market` = 市场风险, `credit` = 信用风险, `operational` = 操作风险,
  `legal_compliance` = 法律合规风险, `technical` = 技术风险,
  `composite` = 综合;
* `pandas.DataFrame` values become `List` of row structures, a pandas
  boolean-mask selection becomes `List.filter`, `Series.unique()` becomes
  `uniqueFirst` (first-occurrence order), and `DataFrame.sort_values`
  becomes the deterministic sort `sortStable`.  The source sorts with the
  default `kind='quicksort'`, for which pandas guarantees only a reordering
  of the rows that is sorted on the key — tie order is unspecified (only
  `mergesort`/`stable` are stable) — so the program's sort contract is the
  relation `SortValuesDescSpec`, `sortStable` realizes one admissible
  result of it, and only tie-order-independent consequences are drawn from
  `sortStable` itself;
* the fallible module-level load (`raise ValueError` on missing columns)
  becomes `Except (List String)`, the error value carrying the set of
  missing required columns that the exception message interpolates;
* external collaborators (`chardet.detect`, `pandas.read_csv`) are
  parameters of the load pipeline, since only their composition is at stake.
-/

namespace Dash5

/-- Colour constant `RED = "#C25759"` from the source. -/
def RED : String := "#C25759"

/-- Colour constant `RED_LIGHT = "#E69191"` from the source. -/
def RED_LIGHT : String := "#E69191"

/-- Colour constant `BLUE = "#599CB4"` from the source. -/
def BLUE : String := "#599CB4"

/-- Colour constant `BLUE_LIGHT = "#92B5CA"` from the source. -/
def BLUE_LIGHT : String := "#92B5CA"

/-- One parsed row of the source CSV.  `year` and `industry` hold the parsed
cell when the corresponding column is present; when a column is absent the
loader ignores the field and substitutes the sentinel (see `mkWideRow`). -/
structure RawRow where
  company : String
  year : String
  industry : String
  RD_0 : ℚ
  RD_1 : ℚ
  RD_2 : ℚ
  RD_3 : ℚ
  RD_4 : ℚ
  RD_5 : ℚ
  RD_6 : ℚ
deriving DecidableEq, Repr, Inhabited

/-- A parsed CSV: its header row and its data rows. -/
structure Csv where
  headers : List String
  rows : List RawRow
deriving DecidableEq, Repr, Inhabited

/-- The required-column set of the loader:
`required = {"company", "RD_0", ..., "RD_6"}` (a Python `set`; we fix the
enumeration order, membership is what the claims are about). -/
def required : List String :=
  ["company", "RD_0", "RD_1", "RD_2", "RD_3", "RD_4", "RD_5", "RD_6"]

/-- Python's `str.strip()`: drop leading and trailing whitespace.  (Defined
structurally over the character list so that concrete instances evaluate.) -/
def pyStrip (s : String) : String :=
  ⟨(((s.data.dropWhile Char.isWhitespace).reverse).dropWhile
      Char.isWhitespace).reverse⟩

/-- Python's `<=` on strings: lexicographic comparison by code point. -/
def lexLe : List Char → List Char → Bool
  | [], _ => true
  | _ :: _, [] => false
  | a :: as, b :: bs => if a = b then lexLe as bs else decide (a.toNat < b.toNat)

/-- String comparison used by `list.sort()` on the year labels. -/
def strLe (s t : String) : Bool := lexLe s.data t.data

/-- One row of the derived wide table
(`wide = raw[["company","year","industry", 5 categories]]` plus `综合`). -/
structure WideRow where
  company : String
  year : String
  industry : String
  market : ℚ
  credit : ℚ
  operational : ℚ
  legal_compliance : ℚ
  technical : ℚ
  composite : ℚ
deriving DecidableEq, Repr, Inhabited

/-- `CATS`, the five category column names, in source order. -/
def CATS : List String := ["市场风险", "信用风险", "操作风险", "法律合规风险", "技术风险"]

/-- The `CATS`-ordered category values of a wide row (`row[CATS]`). -/
def WideRow.cats (w : WideRow) : List ℚ :=
  [w.market, w.credit, w.operational, w.legal_compliance, w.technical]

/-- Shaping of one raw row into a wide row (source lines 46–64): sentinel
backfill of `year`/`industry` when the (trimmed) header set lacks them, the
five fixed linear combinations of `RD_0..RD_6`, and the composite column
`wide["综合"] = wide[CATS].mean(axis=1)`. -/
def mkWideRow (cols : List String) (r : RawRow) : WideRow :=
  let m := r.RD_0
  let c := r.RD_1
  let o := r.RD_2 + r.RD_5
  let lg := r.RD_3
  let t := r.RD_4 + r.RD_6
  { company := r.company
    year := if "year" ∈ cols then r.year else "全部"
    industry := if "industry" ∈ cols then r.industry else "未指定"
    market := m
    credit := c
    operational := o
    legal_compliance := lg
    technical := t
    composite := (m + c + o + lg + t) / 5 }

/-- The module-level load-and-shape block (source lines 38–64): strip the
headers, hard-stop with the set of missing required columns if any, else
produce the derived wide table.  `Except.error` is the `raise ValueError`:
no wide table exists in that case. -/
def loadTable (csv : Csv) : Except (List String) (List WideRow) :=
  let cols := csv.headers.map (fun c => pyStrip c)
  let missing := required.filter (fun c => c ∉ cols)
  if missing ≠ [] then .error missing
  else .ok (csv.rows.map (mkWideRow cols))

/-- `pandas.unique`: the distinct values of a column in first-occurrence
order. -/
def uniqueFirst {α : Type} [DecidableEq α] (l : List α) : List α :=
  l.foldl (fun acc x => if x ∈ acc then acc else acc ++ [x]) []

/-- Insert `a` into a sorted list: `a` goes after every element `x` whose key
may precede `a`'s key (`p (k x) (k a) = true`), so equal keys keep their
arrival order. -/
def insertSorted {α κ : Type} (p : κ → κ → Bool) (k : α → κ) (a : α) :
    List α → List α
  | [] => [a]
  | x :: xs => if p (k x) (k a) then x :: insertSorted p k a xs else a :: x :: xs

/-- Deterministic insertion sort: the executable model of
`DataFrame.sort_values`.  It realizes one admissible result of the source's
default `kind='quicksort'` sort (whose tie order is unspecified, see
`SortValuesDescSpec`); no tie-order conclusion is drawn from it. -/
def sortStable {α κ : Type} (p : κ → κ → Bool) (k : α → κ) (l : List α) :
    List α :=
  l.foldl (fun acc a => insertSorted p k a acc) []

/-- `sort_values(key, ascending=False)`: the executable model of the
descending sort (one admissible result of the default-`kind` sort; the real
sort's tie order is unspecified). -/
def descBy {α : Type} (key : α → ℚ) (l : List α) : List α :=
  sortStable (fun u v => decide (v ≤ u)) key l

/-- `sort_values(key, ascending=True)`: the executable model of the
ascending sort (one admissible result of the default-`kind` sort; the real
sort's tie order is unspecified). -/
def ascBy {α : Type} (key : α → ℚ) (l : List α) : List α :=
  sortStable (fun u v => decide (u ≤ v)) key l

/-- The contract pandas documents for `sort_values(by, ascending=False)`
with the default `kind='quicksort'`: the result is some reordering of the
rows that is descending on the key.  Nothing more is guaranteed — in
particular the order of tied rows is unspecified (pandas: only
`kind='mergesort'`/`'stable'` is stable). -/
def SortValuesDescSpec {α : Type} (key : α → ℚ) (l l' : List α) : Prop :=
  l'.Perm l ∧ l'.Pairwise (fun a b => key b ≤ key a)

/-- The tail of `top_companies` applied to an admissible sort result `l'`:
`dfy["company"].head(n).tolist()`. -/
def topCompaniesOf (l' : List WideRow) (n : Nat) : List String :=
  (l'.map (fun w => w.company)).take n

/-- `list.sort()` on strings (used for `YEARS`). -/
def sortStrings (l : List String) : List String :=
  sortStable (fun u v => strLe u v) (fun s => s) l

/-- `YEARS = list(pd.unique(wide["year"])); YEARS.sort()`. -/
def YEARS (wide : List WideRow) : List String :=
  sortStrings (uniqueFirst (wide.map (fun w => w.year)))

/-- The year-filtered frame `dfy = wide[wide["year"] == year]` shared by
`top_companies` and the chart callbacks. -/
def rowsOfYear (wide : List WideRow) (year : String) : List WideRow :=
  wide.filter (fun w => w.year == year)

/-- `top_companies(year, n)` (source lines 66–68): the companies of the year's
rows, sorted descending by composite, truncated to `n`.  The Python default
is `n=8`. -/
def top_companies (wide : List WideRow) (year : String) (n : Nat) :
    List String :=
  let dfy := descBy (fun w => w.composite) (rowsOfYear wide year)
  (dfy.map (fun w => w.company)).take n

/-- A theme: the `{'background': _, 'text': _}` dictionaries of
`theme_colors`. -/
structure Theme where
  background : String
  text : String
deriving DecidableEq, Repr

/-- `theme_colors['light']`. -/
def theme_colors_light : Theme := ⟨"white", "black"⟩

/-- `theme_colors['dark']`. -/
def theme_colors_dark : Theme := ⟨"#2E2E2E", "white"⟩

/-- `theme_colors['dark'] if is_dark else theme_colors['light']`, the first
statement of every callback. -/
def themeOf (is_dark : Bool) : Theme :=
  if is_dark then theme_colors_dark else theme_colors_light

/-- The metric dropdown options: `"综合"` followed by the five categories
(source lines 141–142). -/
def metricChoices : List String := "综合" :: CATS

/-- The value selected in the metric dropdown: one of `metricChoices`. -/
inductive Metric where
  | composite
  | market
  | credit
  | operational
  | legal_compliance
  | technical
deriving DecidableEq, Repr

/-- The column name a metric stands for. -/
def Metric.column : Metric → String
  | .composite => "综合"
  | .market => "市场风险"
  | .credit => "信用风险"
  | .operational => "操作风险"
  | .legal_compliance => "法律合规风险"
  | .technical => "技术风险"

/-- Reading the metric's column off a wide row (`dfy[metric]`). -/
def Metric.value : Metric → WideRow → ℚ
  | .composite, w => w.composite
  | .market, w => w.market
  | .credit, w => w.credit
  | .operational, w => w.operational
  | .legal_compliance, w => w.legal_compliance
  | .technical, w => w.technical

/-- The `main-content` children built by `toggle_theme` (source lines
94–159): the theme colours it applies and, for each control it re-creates,
the options and the `value=` property it sets.  `yearValue` is
`YEARS[-1]`; `none` marks the empty-`YEARS` case in which the Python
indexing would fail. -/
structure MainContent where
  background : String
  text : String
  yearChoices : List String
  yearValue : Option String
  companyChoices : List String
  companyValue : Option String
  industryChoices : List String
  industryValue : Option String
  compareChoices : List String
  compareValue : List String
  metricSelValue : String
deriving DecidableEq, Repr

/-- The `toggle_theme` callback: rebuilds the whole main content from the
global `YEARS`, every control carrying its hard-coded startup value. -/
def toggle_theme (wide : List WideRow) (is_dark : Bool) : MainContent :=
  let theme := themeOf is_dark
  { background := theme.background
    text := theme.text
    yearChoices := YEARS wide
    yearValue := (YEARS wide).getLast?
    companyChoices := []
    companyValue := none
    industryChoices := []
    industryValue := none
    compareChoices := []
    compareValue := []
    metricSelValue := "综合" }

/-- The six outputs of the `_options_by_year` callback (source lines
162–179). -/
structure OptionsOut where
  companyChoices : List String
  companyValue : Option String
  industryChoices : List String
  industryValue : Option String
  compareChoices : List String
  compareValue : List String
deriving DecidableEq, Repr

/-- `_options_by_year(year)`: regenerate the option lists from the year's
rows; on an empty year return all-empty outputs, else default the company to
the head of the composite-descending sort and the comparison list to
`top_companies(year, n=min(8, len(dfy)))`. -/
def _options_by_year (wide : List WideRow) (year : String) : OptionsOut :=
  let dfy := rowsOfYear wide year
  let opts := uniqueFirst (dfy.map (fun w => w.company))
  if dfy = [] then ⟨[], none, [], none, [], []⟩
  else
    let default_company :=
      ((descBy (fun w => w.composite) dfy).map (fun w => w.company)).headI
    let default_compare := top_companies wide year (min 8 dfy.length)
    let industry_opts := uniqueFirst (dfy.map (fun w => w.industry))
    ⟨opts, some default_company, industry_opts, none, opts, default_compare⟩

/-- The radar figure built by `_radar` (source lines 182–215): the closed
polygon data (`rv`, `theta`) and the presentation parameters. -/
structure RadarFig where
  rv : List ℚ
  theta : List String
  trace : String
  line_color : String
  fillcolor : String
  title : String
  paper_bgcolor : String
  font_color : String
  showlegend : Bool
deriving DecidableEq, Repr

/-- `_radar(year, company, is_dark)`: the first row matching the
`(year, company)` pair supplies the five category values, an all-zero vector
if none matches; the polygon is closed by repeating the first value/axis. -/
def _radar (wide : List WideRow) (year company : String) (is_dark : Bool) :
    RadarFig :=
  let theme := themeOf is_dark
  let dfy := wide.filter (fun w => w.year == year && w.company == company)
  let r : List ℚ :=
    match dfy with
    | [] => List.replicate CATS.length 0
    | w :: _ => w.cats
  let theta := CATS ++ [CATS.headI]
  let rv := r ++ [r.headI]
  { rv := rv
    theta := theta
    trace := company
    line_color := RED
    fillcolor := "rgba(194,87,89,0.20)"
    title := company ++ " 风险画像（" ++ year ++ "）"
    paper_bgcolor := theme.background
    font_color := theme.text
    showlegend := false }

/-- Round half to even (the rounding of `numpy.round`, used by
`Series.round`). -/
def roundHalfEven (x : ℚ) : ℤ :=
  if x - ⌊x⌋ < 1 / 2 then ⌊x⌋
  else if 1 / 2 < x - ⌊x⌋ then ⌊x⌋ + 1
  else if ⌊x⌋ % 2 = 0 then ⌊x⌋ else ⌊x⌋ + 1

/-- `Series.round(2)`: round to 2 decimal places, half to even. -/
def round2 (x : ℚ) : ℚ := (roundHalfEven (x * 100) : ℚ) / 100

/-- One horizontal bar of the comparison chart: its company, its metric
value, its sign colour and its `text=` label. -/
structure Bar where
  company : String
  value : ℚ
  color : String
  label : ℚ
deriving DecidableEq, Repr

/-- The figure built by `_bars`: the bar list and the layout it sets
(`none`s for the bare `go.Figure()` of the empty case). -/
structure BarsFig where
  bars : List Bar
  title : Option String
  paper_bgcolor : Option String
  font_color : Option String
deriving DecidableEq, Repr

/-- The bare `go.Figure()` returned when no row matches. -/
def emptyFigure : BarsFig := ⟨[], none, none, none⟩

/-- `_bars(year, companies, metric, is_dark)` (source lines 218–252): the
year's rows restricted to the comparison set, sorted ascending by the metric,
one bar per row coloured by sign (`>= 0` ↦ `RED`, else `BLUE`) and labelled
with the metric value rounded to 2 decimals. -/
def _bars (wide : List WideRow) (year : String) (companies : List String)
    (metric : Metric) (is_dark : Bool) : BarsFig :=
  let theme := themeOf is_dark
  let dfy := (rowsOfYear wide year).filter (fun w => companies.contains w.company)
  if dfy = [] then emptyFigure
  else
    let sorted := ascBy metric.value dfy
    { bars := sorted.map (fun w =>
        { company := w.company
          value := metric.value w
          color := if 0 ≤ metric.value w then RED else BLUE
          label := round2 (metric.value w) })
      title := some ("公司对比（" ++ year ++ "，维度：" ++ metric.column ++ "）")
      paper_bgcolor := some theme.background
      font_color := some theme.text }

/-- The figure built by `_heatmap`: `z = dfy[CATS].T`, category-major. -/
structure HeatFig where
  z : List (List ℚ)
  title : Option String
  paper_bgcolor : Option String
  font_color : Option String
deriving DecidableEq, Repr

/-- `_heatmap(year, is_dark)` (source lines 255–276): the transposed
category matrix of the year's rows, a bare figure when the year is empty. -/
def _heatmap (wide : List WideRow) (year : String) (is_dark : Bool) : HeatFig :=
  let theme := themeOf is_dark
  let dfy := rowsOfYear wide year
  if dfy = [] then ⟨[], none, none, none⟩
  else
    ⟨[dfy.map (fun w => w.market), dfy.map (fun w => w.credit),
      dfy.map (fun w => w.operational), dfy.map (fun w => w.legal_compliance),
      dfy.map (fun w => w.technical)],
     some (year ++ " 风险维度热力图"),
     some theme.background,
     some theme.text⟩

/-- `read_csv_smart` on the URL branch (source lines 26–31): encoding
detected from the first 50000 content bytes (UTF-8 fallback), then the body
parsed with it.  `detect` abstracts `chardet.detect`, `parse` abstracts
`pandas.read_csv`. -/
def read_csv_smart_url (detect : List Nat → Option String)
    (parse : String → List Nat → Csv) (content : List Nat) : Csv :=
  let enc := (detect (content.take 50000)).getD "utf-8"
  parse enc content

/-- `read_csv_smart` on the local-file branch (source lines 33–35): encoding
detected from the first 50_000 file bytes (UTF-8 fallback), then the file
parsed with it. -/
def read_csv_smart_file (detect : List Nat → Option String)
    (parse : String → List Nat → Csv) (content : List Nat) : Csv :=
  let enc := (detect (content.take 50000)).getD "utf-8"
  parse enc content

/-- The whole load pipeline: fetch-or-read plus shaping (source lines
38–64). -/
def loadPipeline (detect : List Nat → Option String)
    (parse : String → List Nat → Csv) (isUrl : Bool) (content : List Nat) :
    Except (List String) (List WideRow) :=
  loadTable
    (if isUrl then read_csv_smart_url detect parse content
     else read_csv_smart_file detect parse content)

/-! ## Lemmas about the stable sort and the option-list helpers -/

theorem insertSorted_perm {α κ : Type} (p : κ → κ → Bool) (k : α → κ) (a : α)
    (l : List α) : (insertSorted p k a l).Perm (a :: l) := by
  induction l with
  | nil => simp [insertSorted]
  | cons x xs ih =>
    simp only [insertSorted]
    by_cases h : p (k x) (k a) = true
    · rw [if_pos h]
      exact (ih.cons x).trans (List.Perm.swap a x xs)
    · rw [if_neg h]

theorem mem_insertSorted {α κ : Type} (p : κ → κ → Bool) (k : α → κ) (a b : α)
    (l : List α) : b ∈ insertSorted p k a l ↔ b = a ∨ b ∈ l := by
  rw [(insertSorted_perm p k a l).mem_iff, List.mem_cons]

theorem insertSorted_pairwise {α κ : Type} {p : κ → κ → Bool} {k : α → κ}
    (htot : ∀ u v, p u v = true ∨ p v u = true)
    (htrans : ∀ u v w, p u v = true → p v w = true → p u w = true)
    (a : α) {l : List α}
    (hl : l.Pairwise (fun x y => p (k x) (k y) = true)) :
    (insertSorted p k a l).Pairwise (fun x y => p (k x) (k y) = true) := by
  induction l with
  | nil => simp [insertSorted]
  | cons x xs ih =>
    rcases List.pairwise_cons.mp hl with ⟨hx, hxs⟩
    simp only [insertSorted]
    by_cases h : p (k x) (k a) = true
    · rw [if_pos h]
      refine List.pairwise_cons.mpr ⟨?_, ih hxs⟩
      intro y hy
      rcases (mem_insertSorted p k a y xs).mp hy with rfl | hy'
      · exact h
      · exact hx y hy'
    · rw [if_neg h]
      have hax : p (k a) (k x) = true := (htot _ _).resolve_left h
      refine List.pairwise_cons.mpr ⟨?_, hl⟩
      intro y hy
      rcases List.mem_cons.mp hy with rfl | hy'
      · exact hax
      · exact htrans _ _ _ hax (hx y hy')

theorem sortStable_perm {α κ : Type} (p : κ → κ → Bool) (k : α → κ)
    (l : List α) : (sortStable p k l).Perm l := by
  suffices h : ∀ acc : List α,
      (l.foldl (fun acc a => insertSorted p k a acc) acc).Perm (acc ++ l) by
    simpa [sortStable] using h []
  induction l with
  | nil => intro acc; simp
  | cons a l ih =>
    intro acc
    simp only [List.foldl_cons]
    refine (ih (insertSorted p k a acc)).trans ?_
    have h1 : (insertSorted p k a acc ++ l).Perm ((a :: acc) ++ l) :=
      (insertSorted_perm p k a acc).append_right l
    exact h1.trans List.perm_middle.symm

theorem sortStable_pairwise {α κ : Type} {p : κ → κ → Bool} {k : α → κ}
    (htot : ∀ u v, p u v = true ∨ p v u = true)
    (htrans : ∀ u v w, p u v = true → p v w = true → p u w = true)
    (l : List α) :
    (sortStable p k l).Pairwise (fun x y => p (k x) (k y) = true) := by
  suffices h : ∀ acc : List α,
      acc.Pairwise (fun x y => p (k x) (k y) = true) →
      (l.foldl (fun acc a => insertSorted p k a acc) acc).Pairwise
        (fun x y => p (k x) (k y) = true) by
    simpa [sortStable] using h [] (by simp)
  induction l with
  | nil => intro acc hacc; simpa using hacc
  | cons a l ih =>
    intro acc hacc
    exact ih _ (insertSorted_pairwise htot htrans a hacc)

theorem descP_total : ∀ u v : ℚ, decide (v ≤ u) = true ∨ decide (u ≤ v) = true := by
  intro u v
  rcases le_total v u with h | h
  · exact Or.inl (by simpa using h)
  · exact Or.inr (by simpa using h)

theorem descP_trans : ∀ u v w : ℚ, decide (v ≤ u) = true →
    decide (w ≤ v) = true → decide (w ≤ u) = true := by
  intro u v w h1 h2
  simp only [decide_eq_true_eq] at *
  exact h2.trans h1

theorem ascP_total : ∀ u v : ℚ, decide (u ≤ v) = true ∨ decide (v ≤ u) = true := by
  intro u v
  rcases le_total u v with h | h
  · exact Or.inl (by simpa using h)
  · exact Or.inr (by simpa using h)

theorem ascP_trans : ∀ u v w : ℚ, decide (u ≤ v) = true →
    decide (v ≤ w) = true → decide (u ≤ w) = true := by
  intro u v w h1 h2
  simp only [decide_eq_true_eq] at *
  exact h1.trans h2

theorem descBy_perm {α : Type} (key : α → ℚ) (l : List α) :
    (descBy key l).Perm l :=
  sortStable_perm _ _ l

theorem descBy_pairwise {α : Type} (key : α → ℚ) (l : List α) :
    (descBy key l).Pairwise (fun a b => key b ≤ key a) :=
  (sortStable_pairwise descP_total descP_trans l).imp fun h => by
    simpa using h

theorem ascBy_perm {α : Type} (key : α → ℚ) (l : List α) :
    (ascBy key l).Perm l :=
  sortStable_perm _ _ l

theorem ascBy_pairwise {α : Type} (key : α → ℚ) (l : List α) :
    (ascBy key l).Pairwise (fun a b => key a ≤ key b) :=
  (sortStable_pairwise ascP_total ascP_trans l).imp fun h => by
    simpa using h

theorem mem_uniqueFirst {α : Type} [DecidableEq α] (l : List α) (a : α) :
    a ∈ uniqueFirst l ↔ a ∈ l := by
  suffices h : ∀ acc : List α,
      (a ∈ l.foldl (fun acc x => if x ∈ acc then acc else acc ++ [x]) acc ↔
        a ∈ acc ∨ a ∈ l) by
    simpa [uniqueFirst] using h []
  induction l with
  | nil => intro acc; simp
  | cons x xs ih =>
    intro acc
    simp only [List.foldl_cons]
    rw [ih]
    by_cases hx : x ∈ acc
    · rw [if_pos hx]
      constructor
      · rintro (h | h)
        · exact Or.inl h
        · exact Or.inr (List.mem_cons_of_mem x h)
      · rintro (h | h)
        · exact Or.inl h
        · rcases List.mem_cons.mp h with rfl | h'
          · exact Or.inl hx
          · exact Or.inr h'
    · rw [if_neg hx]
      simp only [List.mem_append, List.mem_singleton, List.mem_cons]
      tauto

theorem loadTable_ok_inv {csv : Csv} {w : List WideRow}
    (h : loadTable csv = .ok w) :
    w = csv.rows.map (mkWideRow (csv.headers.map (fun c => pyStrip c))) := by
  simp only [loadTable] at h
  split at h
  · exact absurd h (by simp)
  · simpa using h.symm

theorem closed_poly {r : List ℚ} (h : r ≠ []) :
    (r ++ [r.headI]).getLast? = (r ++ [r.headI]).head? := by
  rw [List.getLast?_concat]
  cases r with
  | nil => exact absurd rfl h
  | cons a t => simp

theorem take_of_min_length {α : Type} (xs : List α) (n : Nat)
    (m : Nat) (h : xs.length = m) : xs.take (min n m) = xs.take n := by
  rw [List.take_eq_take]
  omega

/-! ## Concrete data used by the witnesses -/

/-- A wide row: company A, year 2020, composite 1. -/
def wrA : WideRow := ⟨"A", "2020", "Tech", 1, 1, 1, 1, 1, 1⟩

/-- A wide row: company B, year 2020, composite 3. -/
def wrB : WideRow := ⟨"B", "2020", "Fin", 3, 3, 3, 3, 3, 3⟩

/-- A wide row: company C, year 2021, composite 2. -/
def wrC : WideRow := ⟨"C", "2021", "Tech", 2, 2, 2, 2, 2, 2⟩

/-- A small wide table spanning two years. -/
def sampleWide : List WideRow := [wrA, wrB, wrC]

/-- The raw row of the spec's worked example: `RD_0..6 = [1,2,3,4,5,6,7]`. -/
def sampleRawA : RawRow := ⟨"A", "2021", "制造", 1, 2, 3, 4, 5, 6, 7⟩

/-- A schema-complete CSV holding the worked-example row. -/
def sampleCsv : Csv :=
  ⟨["company", "year", "industry", "RD_0", "RD_1", "RD_2", "RD_3", "RD_4",
    "RD_5", "RD_6"], [sampleRawA]⟩

/-- A CSV whose (stripped) headers lack `RD_5` and `RD_6`. -/
def badCsv : Csv := ⟨["company", " RD_0 ", "RD_1", "RD_2", "RD_3", "RD_4"], []⟩

/-! ## The claims -/

/-- Two tied 2020 rows (equal composite) used by the C1 analysis. -/
def wrT1 : WideRow := ⟨"T1", "2020", "X", 2, 2, 2, 2, 2, 2⟩

/-- The second tied 2020 row, listed after `wrT1`. -/
def wrT2 : WideRow := ⟨"T2", "2020", "X", 2, 2, 2, 2, 2, 2⟩

/-- A wide table whose 2020 rows are tied on composite. -/
def tiedWide : List WideRow := [wrT1, wrT2]

/-- C1 (code bug): the claim promises ties broken by original row order
(a stable sort), but the source sorts with `sort_values("综合",
ascending=False)` under the default `kind='quicksort'`, whose contract
(`SortValuesDescSpec`: a reordering that is descending on the key) leaves
the order of tied rows unspecified — pandas documents only
`kind='mergesort'`/`'stable'` as stable.  Concretely, for the tied 2020 rows
`wrT1` and `wrT2`, both orders are admissible results of the program's sort
and they yield different company rankings, so the claimed tie-breaking is
not a property of the program (the code would need `kind='stable'`). -/
theorem top_companies_tie_underdetermined :
    SortValuesDescSpec (fun w => w.composite) (rowsOfYear tiedWide "2020")
        [wrT1, wrT2]
    ∧ SortValuesDescSpec (fun w => w.composite) (rowsOfYear tiedWide "2020")
        [wrT2, wrT1]
    ∧ topCompaniesOf [wrT1, wrT2] 2 = ["T1", "T2"]
    ∧ topCompaniesOf [wrT2, wrT1] 2 = ["T2", "T1"]
    ∧ (["T1", "T2"] : List String) ≠ ["T2", "T1"] := by
  have hrows : rowsOfYear tiedWide "2020" = [wrT1, wrT2] := by decide
  refine ⟨⟨?_, ?_⟩, ⟨?_, ?_⟩, rfl, rfl, by decide⟩
  · rw [hrows]
  · decide
  · rw [hrows]
    exact List.Perm.swap wrT1 wrT2 []
  · decide

/-- C3: in every successfully loaded wide table, the composite column of
every row is exactly the arithmetic mean of the five category columns. -/
theorem composite_is_mean (csv : Csv) (w : List WideRow)
    (h : loadTable csv = .ok w) :
    ∀ r ∈ w, r.composite =
      (r.market + r.credit + r.operational + r.legal_compliance +
        r.technical) / 5 := by
  have hw := loadTable_ok_inv h
  subst hw
  intro r hr
  rcases List.mem_map.mp hr with ⟨rr, _, rfl⟩
  simp [mkWideRow]

/-- C3 witness: the mean invariant evaluated on the loaded `sampleCsv`. -/
theorem composite_is_mean_witness :
    letI r := mkWideRow (sampleCsv.headers.map (fun c => pyStrip c)) sampleRawA
    r.composite =
      (r.market + r.credit + r.operational + r.legal_compliance +
        r.technical) / 5 :=
  composite_is_mean sampleCsv _ rfl _
    (List.mem_map_of_mem _ (by simp [sampleCsv]))

/-- C4: the five categories are the fixed linear combinations of the raw
sub-indicators (`market = RD_0`, `credit = RD_1`,
`operational = RD_2 + RD_5`, `legal_compliance = RD_3`,
`technical = RD_4 + RD_6`), every row of a loaded table arises that way from
a source row, and on the worked example `RD_0..6 = [1,2,3,4,5,6,7]` the
derived values are `1, 2, 9, 4, 12` with composite `5.6`. -/
theorem derived_category_formulas (cols : List String) (r : RawRow) :
    (mkWideRow cols r).market = r.RD_0
    ∧ (mkWideRow cols r).credit = r.RD_1
    ∧ (mkWideRow cols r).operational = r.RD_2 + r.RD_5
    ∧ (mkWideRow cols r).legal_compliance = r.RD_3
    ∧ (mkWideRow cols r).technical = r.RD_4 + r.RD_6
    ∧ (∀ csv w, loadTable csv = .ok w → ∀ x ∈ w, ∃ rr ∈ csv.rows,
        x = mkWideRow (csv.headers.map (fun c => pyStrip c)) rr)
    ∧ (mkWideRow cols sampleRawA).market = 1
    ∧ (mkWideRow cols sampleRawA).credit = 2
    ∧ (mkWideRow cols sampleRawA).operational = 9
    ∧ (mkWideRow cols sampleRawA).legal_compliance = 4
    ∧ (mkWideRow cols sampleRawA).technical = 12
    ∧ (mkWideRow cols sampleRawA).composite = 5.6 := by
  refine ⟨rfl, rfl, rfl, rfl, rfl, ?_, ?_, ?_, ?_, ?_, ?_, ?_⟩
  · intro csv w h x hx
    have hw := loadTable_ok_inv h
    subst hw
    rcases List.mem_map.mp hx with ⟨rr, hrr, rfl⟩
    exact ⟨rr, hrr, rfl⟩
  all_goals norm_num [mkWideRow, sampleRawA]

/-- C4 witness: the loaded-table conjunct instantiated on `sampleCsv`. -/
theorem derived_category_formulas_witness :
    ∃ rr ∈ sampleCsv.rows,
      mkWideRow (sampleCsv.headers.map (fun c => pyStrip c)) sampleRawA =
        mkWideRow (sampleCsv.headers.map (fun c => pyStrip c)) rr :=
  (derived_category_formulas [] sampleRawA).2.2.2.2.2.1 sampleCsv _ rfl _
    (List.mem_map_of_mem _ (by simp [sampleCsv]))

/-- C5: loading fails iff some required column is absent from the stripped
headers; the error value lists exactly the missing required columns (and is
nonempty), and on failure no wide table is produced (the `Except` is an
`error`, the Python `raise` before any chart logic). -/
theorem loadTable_schema_check (csv : Csv) :
    ((∀ c ∈ required, c ∈ csv.headers.map (fun s => pyStrip s)) →
      loadTable csv =
        .ok (csv.rows.map (mkWideRow (csv.headers.map (fun s => pyStrip s)))))
    ∧ ((∃ c ∈ required, c ∉ csv.headers.map (fun s => pyStrip s)) →
      loadTable csv = .error
        (required.filter (fun c => c ∉ csv.headers.map (fun s => pyStrip s))))
    ∧ (∀ e, loadTable csv = .error e → e ≠ [] ∧
        ∀ c, c ∈ e ↔ c ∈ required ∧ c ∉ csv.headers.map (fun s => pyStrip s)) := by
  refine ⟨?_, ?_, ?_⟩
  · intro hall
    have hm : required.filter
        (fun c => !decide (c ∈ csv.headers.map (fun s => pyStrip s))) = [] := by
      rw [List.filter_eq_nil_iff]
      intro c hc
      simpa using hall c hc
    simp only [loadTable]
    rw [if_neg (by simpa using hm)]
  · intro ⟨c, hc, habs⟩
    have hm : c ∈ required.filter
        (fun c => !decide (c ∈ csv.headers.map (fun s => pyStrip s))) :=
      List.mem_filter.mpr ⟨hc, by simpa using habs⟩
    simp only [loadTable]
    rw [if_pos (by simpa using List.ne_nil_of_mem hm)]
  · intro e he
    simp only [loadTable] at he
    split at he
    case isTrue hcond =>
      have he' := (Except.error.injEq _ _).mp he.symm
      subst he'
      refine ⟨by simpa using hcond, fun c => ?_⟩
      constructor
      · intro hc
        have := List.mem_filter.mp hc
        exact ⟨this.1, by simpa using this.2⟩
      · intro ⟨h1, h2⟩
        exact List.mem_filter.mpr ⟨h1, by simpa using h2⟩
    case isFalse => exact absurd he (by simp)

/-- C5 witness: `badCsv` (headers missing `RD_5`, `RD_6`, one padded with
whitespace) fails naming exactly those two columns, while the
schema-complete `sampleCsv` loads. -/
theorem loadTable_schema_check_witness :
    loadTable badCsv = .error ["RD_5", "RD_6"]
    ∧ loadTable sampleCsv =
        .ok (sampleCsv.rows.map
          (mkWideRow (sampleCsv.headers.map (fun s => pyStrip s)))) := by
  constructor
  · have h := (loadTable_schema_check badCsv).2.1 ⟨"RD_5", by decide, by decide⟩
    rw [h]
    exact congrArg Except.error (by decide)
  · exact (loadTable_schema_check sampleCsv).1 (by decide)

/-- C9: the load pipeline is deterministic — two runs over the same source
bytes (with the same encoding detector and parser, themselves pure
collaborators) yield the same derived table — and the URL branch and the
local-file branch of `read_csv_smart` agree on the same bytes, both
detecting the encoding from the first 50000 bytes. -/
theorem loadPipeline_deterministic
    (detect : List Nat → Option String) (parse : String → List Nat → Csv)
    (isUrl : Bool) (content : List Nat)
    (t1 t2 : Except (List String) (List WideRow))
    (h1 : t1 = loadPipeline detect parse isUrl content)
    (h2 : t2 = loadPipeline detect parse isUrl content) :
    t1 = t2
    ∧ read_csv_smart_url detect parse content =
        read_csv_smart_file detect parse content :=
  ⟨h1.trans h2.symm, rfl⟩

/-- C9 witness: determinism instantiated with a concrete detector, parser
and byte string. -/
theorem loadPipeline_deterministic_witness :
    loadPipeline (fun _ => none) (fun _ _ => sampleCsv) true [0, 1, 2] =
      loadPipeline (fun _ => none) (fun _ _ => sampleCsv) true [0, 1, 2]
    ∧ read_csv_smart_url (fun _ => none) (fun _ _ => sampleCsv) [0, 1, 2] =
        read_csv_smart_file (fun _ => none) (fun _ _ => sampleCsv) [0, 1, 2] :=
  loadPipeline_deterministic (fun _ => none) (fun _ _ => sampleCsv) true
    [0, 1, 2] _ _ rfl rfl

/-- C6: setting the year control regenerates the company, industry and
comparison-candidate option lists from the rows of that year alone and
resets the dependent selections to the year's defaults — the company
selector to a company of maximal composite for the year, the comparison
list to `top_companies(year, 8)` (the source's `n=min(8, len(dfy))` takes
the same prefix), the industry filter to none — and a year with zero
matching rows yields all-empty options and selections (a total function:
no exception). -/
theorem options_by_year_spec (wide : List WideRow) (year : String) :
    (rowsOfYear wide year = [] →
      _options_by_year wide year = ⟨[], none, [], none, [], []⟩)
    ∧ (rowsOfYear wide year ≠ [] →
        (_options_by_year wide year).companyChoices =
          uniqueFirst ((rowsOfYear wide year).map (fun w => w.company))
        ∧ (_options_by_year wide year).industryChoices =
          uniqueFirst ((rowsOfYear wide year).map (fun w => w.industry))
        ∧ (_options_by_year wide year).compareChoices =
          (_options_by_year wide year).companyChoices
        ∧ (∃ w0 ∈ rowsOfYear wide year,
            (_options_by_year wide year).companyValue = some w0.company
            ∧ ∀ w ∈ rowsOfYear wide year, w.composite ≤ w0.composite)
        ∧ (_options_by_year wide year).compareValue =
            top_companies wide year 8
        ∧ (_options_by_year wide year).industryValue = none) := by
  constructor
  · intro h
    simp [_options_by_year, h]
  · intro h
    have hperm := descBy_perm (fun w : WideRow => w.composite)
      (rowsOfYear wide year)
    have hpw := descBy_pairwise (fun w : WideRow => w.composite)
      (rowsOfYear wide year)
    refine ⟨?_, ?_, ?_, ?_, ?_, ?_⟩
    · simp [_options_by_year, if_neg h]
    · simp [_options_by_year, if_neg h]
    · simp [_options_by_year, if_neg h]
    · rcases hs : descBy (fun w : WideRow => w.composite)
          (rowsOfYear wide year) with _ | ⟨w0, rest⟩
      · rw [hs] at hperm
        exact absurd hperm.symm.eq_nil h
      · refine ⟨w0, ?_, ?_, ?_⟩
        · rw [hs] at hperm
          exact hperm.mem_iff.mp (List.mem_cons_self _ _)
        · simp [_options_by_year, if_neg h, hs]
        · intro w hw
          rw [hs] at hperm hpw
          rcases List.mem_cons.mp (hperm.mem_iff.mpr hw) with rfl | hw'
          · exact le_refl _
          · exact (List.pairwise_cons.mp hpw).1 w hw'
    · have h1 : (_options_by_year wide year).compareValue =
          top_companies wide year (min 8 (rowsOfYear wide year).length) := by
        simp [_options_by_year, if_neg h]
      rw [h1]
      simp only [top_companies]
      exact take_of_min_length _ 8 _
        (by rw [List.length_map, hperm.length_eq])
    · simp [_options_by_year, if_neg h]

/-- C6 witness: the empty year 1999 produces all-empty outputs, and for 2020
the comparison default is `top_companies("2020", 8)`. -/
theorem options_by_year_spec_witness :
    _options_by_year sampleWide "1999" = ⟨[], none, [], none, [], []⟩
    ∧ (_options_by_year sampleWide "2020").compareValue =
        top_companies sampleWide "2020" 8 :=
  ⟨(options_by_year_spec sampleWide "1999").1 (by decide),
   ((options_by_year_spec sampleWide "2020").2 (by decide)).2.2.2.2.1⟩

/-- C7: the radar trace always has six points, its angular axis is the five
categories with the first repeated at the end, its last radial value equals
its first (the polygon is closed); when a row matches the `(year, company)`
pair the plotted values are that (first matching) row's five category
values, closed by repeating its first category (`market`), and when no row
matches the plotted values are all zero — a total function, no
exception. -/
theorem radar_spec (wide : List WideRow) (year company : String)
    (is_dark : Bool) :
    (_radar wide year company is_dark).rv.length = 6
    ∧ (_radar wide year company is_dark).rv.getLast? =
        (_radar wide year company is_dark).rv.head?
    ∧ (_radar wide year company is_dark).theta = CATS ++ [CATS.headI]
    ∧ (_radar wide year company is_dark).theta.length = 6
    ∧ (wide.filter (fun w => w.year == year && w.company == company) = [] →
        (_radar wide year company is_dark).rv = [0, 0, 0, 0, 0, 0])
    ∧ ∀ w rest, wide.filter (fun x => x.year == year && x.company == company) =
        w :: rest →
      (_radar wide year company is_dark).rv = w.cats ++ [w.market] := by
  rcases hd : wide.filter (fun w => w.year == year && w.company == company)
    with _ | ⟨w0, rest0⟩
  · refine ⟨?_, ?_, rfl, by simp [_radar, CATS], ?_, ?_⟩
    · simp [_radar, hd, CATS]
    · simp only [_radar, hd]
      exact closed_poly (by simp [CATS])
    · intro _
      simp [_radar, hd, CATS, List.replicate]
    · intro w rest heq
      rw [hd] at heq
      exact absurd heq (by simp)
  · refine ⟨?_, ?_, rfl, by simp [_radar, CATS], ?_, ?_⟩
    · simp [_radar, hd, WideRow.cats]
    · simp only [_radar, hd]
      exact closed_poly (by simp [WideRow.cats])
    · intro habs
      rw [habs] at hd
      exact absurd hd (by simp)
    · intro w rest heq
      rw [hd] at heq
      injection heq with h1 h2
      subst h1
      simp [_radar, hd, WideRow.cats]

/-- C7 witness: over `sampleWide`, an unmatched `(year, company)` pair plots
the all-zero closed polygon, and the matched pair (2020, A) plots row
`wrA`'s five category values closed by its market value. -/
theorem radar_spec_witness :
    sampleWide.filter (fun w => w.year == "2020" && w.company == "Z") = []
    ∧ (_radar sampleWide "2020" "Z" false).rv = [0, 0, 0, 0, 0, 0]
    ∧ (_radar sampleWide "2020" "A" false).rv = wrA.cats ++ [wrA.market] :=
  ⟨by decide,
   (radar_spec sampleWide "2020" "Z" false).2.2.2.2.1 (by decide),
   (radar_spec sampleWide "2020" "A" false).2.2.2.2.2 wrA [] (by decide)⟩

/-- C10: for a year with at least one row, the cascade's defaults are valid
selections — the default company is one of the generated company options,
and every company in the default comparison list is one of the generated
comparison options. -/
theorem defaults_valid (wide : List WideRow) (year : String)
    (h : rowsOfYear wide year ≠ []) :
    (∃ c, (_options_by_year wide year).companyValue = some c
        ∧ c ∈ (_options_by_year wide year).companyChoices)
    ∧ ∀ c ∈ (_options_by_year wide year).compareValue,
        c ∈ (_options_by_year wide year).compareChoices := by
  have hperm := descBy_perm (fun w : WideRow => w.composite)
    (rowsOfYear wide year)
  constructor
  · rcases hs : descBy (fun w : WideRow => w.composite)
        (rowsOfYear wide year) with _ | ⟨w0, rest⟩
    · rw [hs] at hperm
      exact absurd hperm.symm.eq_nil h
    · refine ⟨w0.company, ?_, ?_⟩
      · simp [_options_by_year, if_neg h, hs]
      · have hw0 : w0 ∈ rowsOfYear wide year := by
          rw [hs] at hperm
          exact hperm.mem_iff.mp (List.mem_cons_self _ _)
        simp only [_options_by_year, if_neg h]
        exact (mem_uniqueFirst _ _).mpr (List.mem_map_of_mem _ hw0)
  · intro c hc
    have h1 : (_options_by_year wide year).compareValue =
        top_companies wide year (min 8 (rowsOfYear wide year).length) := by
      simp [_options_by_year, if_neg h]
    rw [h1] at hc
    simp only [top_companies] at hc
    rcases List.mem_map.mp (List.take_subset _ _ hc) with ⟨w, hw, rfl⟩
    simp only [_options_by_year, if_neg h]
    exact (mem_uniqueFirst _ _).mpr
      (List.mem_map_of_mem _ (hperm.mem_iff.mp hw))

/-- C10 witness: for 2020 the default company is offered by the company
option list. -/
theorem defaults_valid_witness :
    rowsOfYear sampleWide "2020" ≠ []
    ∧ ∃ c, (_options_by_year sampleWide "2020").companyValue = some c
        ∧ c ∈ (_options_by_year sampleWide "2020").companyChoices :=
  ⟨by decide, (defaults_valid sampleWide "2020" (by decide)).1⟩

/-- The control-preservation reading of the theme-toggle claim: the main
content emitted by `toggle_theme` still shows the year control carrying the
currently selected year (the re-created dropdown's `value=` property becomes
the control's selected value, whichever way the switch is thrown). -/
def preservesSelections (wide : List WideRow) (yearSel : String) : Prop :=
  ∀ is_dark : Bool, (toggle_theme wide is_dark).yearValue = some yearSel

/-- C2 counterexample: over `sampleWide` (years 2020 and 2021), with the
year control currently on the selectable value 2020, toggling the theme
emits main content whose year control carries 2021 (`YEARS[-1]`): the
toggle does alter a control's selected value. -/
theorem toggle_theme_alters_selection :
    "2020" ∈ YEARS sampleWide ∧ ¬ preservesSelections sampleWide "2020" :=
  ⟨by decide, fun hp => absurd (hp true) (by decide)⟩

/-- C2 (amended): the theme flag is purely presentational for the three
chart callbacks — radar values and axes, bar lists and heatmap matrices are
identical under both themes — and `toggle_theme` emits the same control
options and values under both themes while changing the background; but
those emitted values are the fixed startup defaults (year → last element of
`YEARS`, company → none, comparison → empty, metric → composite), not the
user's current selections, so toggling resets the controls (see the
counterexample). -/
theorem theme_toggle_presentation_only (wide : List WideRow)
    (year company : String) (companies : List String) (metric : Metric) :
    (_radar wide year company true).rv = (_radar wide year company false).rv
    ∧ (_radar wide year company true).theta =
        (_radar wide year company false).theta
    ∧ (_bars wide year companies metric true).bars =
        (_bars wide year companies metric false).bars
    ∧ (_heatmap wide year true).z = (_heatmap wide year false).z
    ∧ (∀ d : Bool, (toggle_theme wide d).yearValue = (YEARS wide).getLast?
        ∧ (toggle_theme wide d).companyValue = none
        ∧ (toggle_theme wide d).compareValue = []
        ∧ (toggle_theme wide d).industryValue = none
        ∧ (toggle_theme wide d).metricSelValue = "综合"
        ∧ (toggle_theme wide d).yearChoices = YEARS wide)
    ∧ (toggle_theme wide true).background ≠
        (toggle_theme wide false).background := by
  refine ⟨rfl, rfl, ?_, ?_, fun d => ⟨rfl, rfl, rfl, rfl, rfl, rfl⟩,
    (by decide : ("#2E2E2E" : String) ≠ "white")⟩
  · simp only [_bars]
    rcases eq_or_ne ((rowsOfYear wide year).filter
        (fun w => companies.contains w.company)) [] with hdfy | hdfy
    · rw [if_pos hdfy, if_pos hdfy]
    · rw [if_neg hdfy, if_neg hdfy]
  · simp only [_heatmap]
    rcases eq_or_ne (rowsOfYear wide year) [] with hdfy | hdfy
    · rw [if_pos hdfy, if_pos hdfy]
    · rw [if_neg hdfy, if_neg hdfy]

/-- C2 amended witness: the theorem instantiated on `sampleWide`. -/
theorem theme_toggle_presentation_only_witness :
    (_radar sampleWide "2020" "A" true).rv =
        (_radar sampleWide "2020" "A" false).rv
    ∧ (toggle_theme sampleWide true).background ≠
        (toggle_theme sampleWide false).background :=
  ⟨(theme_toggle_presentation_only sampleWide "2020" "A" ["A"]
      Metric.composite).1,
   (theme_toggle_presentation_only sampleWide "2020" "A" ["A"]
      Metric.composite).2.2.2.2.2⟩

/-- C8: the bar chart plots the chosen metric for exactly the rows of the
selected year whose company is in the comparison set (as a multiset of
(company, value) pairs), in ascending metric order, each bar coloured by
sign (non-negative `RED`, negative `BLUE`) and labelled with the value
rounded to 2 decimals; when no row matches the output is the bare empty
figure and no exception arises. -/
theorem bars_spec (wide : List WideRow) (year : String)
    (companies : List String) (metric : Metric) (is_dark : Bool) :
    ((rowsOfYear wide year).filter (fun w => companies.contains w.company) = []
      → _bars wide year companies metric is_dark = emptyFigure)
    ∧ ((rowsOfYear wide year).filter (fun w => companies.contains w.company) ≠ []
      → ((_bars wide year companies metric is_dark).bars.map
            (fun b => (b.company, b.value))).Perm
          (((rowsOfYear wide year).filter
              (fun w => companies.contains w.company)).map
            (fun w => (w.company, metric.value w)))
        ∧ (_bars wide year companies metric is_dark).bars.Pairwise
            (fun b b' => b.value ≤ b'.value)
        ∧ ∀ b ∈ (_bars wide year companies metric is_dark).bars,
            b.color = (if 0 ≤ b.value then RED else BLUE)
            ∧ b.label = round2 b.value) := by
  constructor
  · intro h
    simp only [_bars]
    rw [if_pos h]
  · intro h
    have hbars : (_bars wide year companies metric is_dark).bars =
        (ascBy metric.value ((rowsOfYear wide year).filter
          (fun w => companies.contains w.company))).map
          (fun w => ⟨w.company, metric.value w,
            if 0 ≤ metric.value w then RED else BLUE,
            round2 (metric.value w)⟩) := by
      simp only [_bars]
      rw [if_neg h]
    have hperm := ascBy_perm metric.value
      ((rowsOfYear wide year).filter (fun w => companies.contains w.company))
    refine ⟨?_, ?_, ?_⟩
    · rw [hbars, List.map_map]
      exact hperm.map (fun w => (w.company, metric.value w))
    · rw [hbars, List.pairwise_map]
      exact ascBy_pairwise metric.value _
    · intro b hb
      rw [hbars] at hb
      rcases List.mem_map.mp hb with ⟨w, _, rfl⟩
      exact ⟨rfl, rfl⟩

/-- C8 witness: on `sampleWide`, an unmatched comparison set yields the
empty figure, and the comparison of A and B in 2020 yields bars in
ascending metric order. -/
theorem bars_spec_witness :
    ((rowsOfYear sampleWide "2020").filter
        (fun w => (["Z"] : List String).contains w.company) = []
      ∧ _bars sampleWide "2020" ["Z"] Metric.composite false = emptyFigure)
    ∧ ((rowsOfYear sampleWide "2020").filter
        (fun w => (["A", "B"] : List String).contains w.company) ≠ []
      ∧ (_bars sampleWide "2020" ["A", "B"] Metric.composite false).bars.Pairwise
          (fun b b' => b.value ≤ b'.value)) :=
  ⟨⟨by decide,
    (bars_spec sampleWide "2020" ["Z"] Metric.composite false).1 (by decide)⟩,
   ⟨by decide,
    ((bars_spec sampleWide "2020" ["A", "B"] Metric.composite false).2
      (by decide)).2.1⟩⟩

end Dash5
